import Mathlib

/-!
Verification of the `angel_email` ingestion pipeline.

The definitions below are a shallow embedding of the Python sources:
`email_parser.py` (MIME extraction), `db.py` (the SQLite index, modelled with
explicit commit/rollback semantics of the Python `sqlite3` module),
`gmail_client.py` (file-system side effects, modelled as a pure disk map) and
the per-message loop of `__init__.py` (`main`).  Theorems at the end of the
file settle the specification claims against these definitions.
-/

/-! ### String helpers (Python `in`, `lower`, `upper`, `strip`) -/

/-- `hasInitSeg pat s` holds when `pat` is an initial segment of `s`. -/
def hasInitSeg : List Char → List Char → Bool
  | [], _ => true
  | _ :: _, [] => false
  | p :: ps, c :: cs => p == c && hasInitSeg ps cs

/-- `containsSeg pat s` holds when `pat` occurs contiguously somewhere in `s`. -/
def containsSeg : List Char → List Char → Bool
  | pat, [] => pat.isEmpty
  | pat, s@(_ :: rest) => hasInitSeg pat s || containsSeg pat rest

/-- Python's substring test `pat in s`. -/
def pyIn (pat s : String) : Bool := containsSeg pat.data s.data

/-- Python's `str.lower()` (ASCII behaviour). -/
def strLower (s : String) : String := ⟨s.data.map Char.toLower⟩

/-- Python's `str.upper()` (ASCII behaviour). -/
def strUpper (s : String) : String := ⟨s.data.map Char.toUpper⟩

/-- Python's `str.strip()`: drop leading and trailing whitespace. -/
def pyStrip (s : String) : String :=
  ⟨((s.data.dropWhile Char.isWhitespace).reverse.dropWhile Char.isWhitespace).reverse⟩

/-- Python list membership `a in l` for strings. -/
def pyElem (a : String) (l : List String) : Bool := l.any (· == a)

/-- Lookup in an association list, modelling Python `dict.__getitem__` /
`dict.get` over `label_id_to_name`. -/
def lookupOpt (m : List (String × String)) (k : String) : Option String :=
  (m.find? (·.1 == k)).map (·.2)

/-- Python `dict.get(k, "")`. -/
def lookupName (m : List (String × String)) (k : String) : String :=
  (lookupOpt m k).getD ""

/-! ### MIME part tree (the decoded structure produced by `email.message_from_bytes`)

A `Leaf` records, for a non-container MIME part, exactly the observations the
Python code makes of it:
* `ctype`    — `part.get_content_type()`;
* `disposition` — `part.get("Content-Disposition", "")`;
* `filename` — `part.get_filename()` (`none` for Python `None`);
* `content`  — the decoded text payload used by `extract_bodies`
  (`none` when both `get_content()` and the raw-decode fallback fail);
* `payload`  — `part.get_payload(decode=True)` as bytes
  (`none` when it raises or returns `None`). -/
structure Leaf where
  ctype : String
  disposition : String
  filename : Option String
  content : Option String
  payload : Option (List Nat)
deriving DecidableEq, Repr

/-- A decoded MIME message: either a single non-multipart leaf, or a
multipart container with subparts. -/
inductive MimePart where
  | leaf : Leaf → MimePart
  | multipart : List MimePart → MimePart

mutual

/-- All leaves of a part tree in `Message.walk()` order (depth-first,
containers skipped). -/
def walkLeaves : MimePart → List Leaf
  | .leaf l => [l]
  | .multipart ps => walkLeavesList ps

def walkLeavesList : List MimePart → List Leaf
  | [] => []
  | p :: ps => walkLeaves p ++ walkLeavesList ps

end

/-- `get_content_maintype()`: the part of the content type before `/`. -/
def contentMaintype (ct : String) : String := ⟨ct.data.takeWhile (· ≠ '/')⟩

/-- The leaves the Python loops actually visit: `walk()` skips every part
whose maintype is `multipart`. -/
def nonContainerLeaves (ps : List MimePart) : List Leaf :=
  (walkLeavesList ps).filter (fun l => contentMaintype l.ctype ≠ "multipart")

/-! ### `extract_bodies` (email_parser.py lines 51-91) -/

/-- One iteration of the body-extraction loop: the `if ctype == "text/plain"
... elif ctype == "text/html" ...` block, acting on the accumulated
`(text_body, html_body)` pair. -/
def bodiesStep (acc : Option String × Option String) (l : Leaf) :
    Option String × Option String :=
  if l.ctype = "text/plain" ∧ l.content.isSome ∧ acc.1 = none then
    (l.content, acc.2)
  else if l.ctype = "text/html" ∧ l.content.isSome ∧ acc.2 = none then
    (acc.1, l.content)
  else acc

/-- `extract_bodies`: best-effort text and HTML payloads.  The multipart
branch walks the tree; the non-multipart branch applies the content-type
test to the message itself. -/
def extract_bodies : MimePart → Option String × Option String
  | .multipart ps => (nonContainerLeaves ps).foldl bodiesStep (none, none)
  | .leaf l =>
    if l.ctype = "text/plain" then (l.content, none)
    else if l.ctype = "text/html" then (none, l.content)
    else (none, none)

/-! ### `extract_attachments` (email_parser.py lines 94-192) -/

/-- The Outlook/Exchange junk filename markers (`_OUTLOOK_JUNK_PREFIXES`). -/
def outlookJunk : List String := ["EML*OECUSTOMPROPERTY", "EML*OECUSTOMHTML"]

/-- `any(prefix in filename.upper() for prefix in _OUTLOOK_JUNK_PREFIXES)`. -/
def isJunk (filename : String) : Bool :=
  outlookJunk.any (fun p => pyIn p (strUpper filename))

/-- Python truthiness of `part.get_filename()`: a present, non-empty name. -/
def truthyFilename : Option String → Bool
  | none => false
  | some s => s ≠ ""

/-- One attachment record: `{filename, content_type, data, size}`. -/
structure AttachmentRec where
  filename : String
  content_type : String
  data : List Nat
  size : Nat
deriving DecidableEq, Repr

/-- The records contributed by one visited part in the multipart branch of
`extract_attachments` (the body of the `for part in msg.walk()` loop). -/
def attPartMulti (l : Leaf) : List AttachmentRec :=
  let cd := strLower l.disposition
  if truthyFilename l.filename ∧ isJunk ((l.filename).getD "") then []
  else
    let is_att := pyIn "attachment" cd
      || (pyIn "inline" cd && truthyFilename l.filename)
      || l.filename.isSome
    if is_att = false ∧ (l.ctype = "text/plain" ∨ l.ctype = "text/html") then []
    else if is_att ∧ truthyFilename l.filename then
      match l.payload with
      | some d => if d ≠ [] then [⟨(l.filename).getD "", l.ctype, d, d.length⟩] else []
      | none => []
    else []

/-- The non-multipart branch of `extract_attachments`: the message itself is
checked, with the narrower disposition-only qualification test. -/
def attSingle (l : Leaf) : List AttachmentRec :=
  let cd := strLower l.disposition
  if truthyFilename l.filename ∧ isJunk ((l.filename).getD "") then []
  else
    let is_att := pyIn "attachment" cd
      || (pyIn "inline" cd && truthyFilename l.filename)
    if is_att ∧ truthyFilename l.filename then
      match l.payload with
      | some d => if d ≠ [] then [⟨(l.filename).getD "", l.ctype, d, d.length⟩] else []
      | none => []
    else []

/-- `extract_attachments`.  In the multipart branch each visited leaf
contributes its records independently of the accumulator, so the appending
loop is the concatenation of per-leaf contributions. -/
def extract_attachments : MimePart → List AttachmentRec
  | .multipart ps => (nonContainerLeaves ps).flatMap attPartMulti
  | .leaf l => attSingle l

/-! ### Sync query builder (the `combined_q` computation in `main`,
__init__.py lines 152-157).  `none` models Python `None`; Python truthiness
makes the empty string behave like `None` in both positions. -/

/-- Build the fetch filter from the optional base `--query` and the optional
`--mark-downloaded` label name. -/
def build_query (query : Option String) (doneLabel : Option String) : Option String :=
  match doneLabel with
  | none => query
  | some lbl =>
    if lbl = "" then query
    else
      let escaped := if pyIn " " lbl then "\"" ++ lbl ++ "\"" else lbl
      let exclude := "-label:" ++ escaped
      match query with
      | none => some exclude
      | some q => if q = "" then some exclude else some (q ++ " " ++ exclude)

/-- Number of positions at which `pat` starts inside `s`. -/
def countSeg (pat : List Char) : List Char → Nat
  | [] => if pat.isEmpty then 1 else 0
  | s@(_ :: rest) => (if hasInitSeg pat s then 1 else 0) + countSeg pat rest

/-! ### Destination grouping (the `primary_label` loop in `main`,
__init__.py lines 172-178). -/

/-- The loop: iterate the message's metadata label ids, map each through
`label_id_to_name.get(lid, "")`, and break at the first name that occurs in
the requested `label_names`; if none matches, keep `label_names[0]`. -/
def primary_label (labelNames : List String) (idToName : List (String × String)) :
    List String → String
  | [] => labelNames.headD ""
  | lid :: rest =>
    let name := lookupName idToName lid
    if pyElem name labelNames then name else primary_label labelNames idToName rest

/-- The destination rule as the claim words it: the first label in the
caller's requested-label order that also appears among the message's
metadata-reported label names, defaulting to the first requested label. -/
def claim_primary_label (labelNames : List String) (idToName : List (String × String))
    (msgLabelIds : List String) : String :=
  let msgNames := msgLabelIds.map (lookupName idToName)
  ((labelNames.find? (fun n => pyElem n msgNames)).getD (labelNames.headD ""))

/-! ### Date normalization (db.py `normalize_date`).  The stdlib parser
`email.utils.parsedate_to_datetime` is external to the repository and is
passed in as a function; parse failure (an exception in Python) is `none`. -/

/-- The fields of a parsed datetime that `strftime("%Y/%m/%d %H:%M")` reads. -/
structure PyDateTime where
  year : Nat
  month : Nat
  day : Nat
  hour : Nat
  minute : Nat
deriving DecidableEq, Repr

/-- Zero-pad to two digits (`%m`, `%d`, `%H`, `%M`). -/
def pad2 (n : Nat) : String := if n < 10 then "0" ++ toString n else toString n

/-- Zero-pad to four digits (`%Y`). -/
def pad4 (n : Nat) : String :=
  if n < 10 then "000" ++ toString n
  else if n < 100 then "00" ++ toString n
  else if n < 1000 then "0" ++ toString n
  else toString n

/-- `dt.strftime("%Y/%m/%d %H:%M")`. -/
def strftimeYmdHM (dt : PyDateTime) : String :=
  pad4 dt.year ++ "/" ++ pad2 dt.month ++ "/" ++ pad2 dt.day ++ " "
    ++ pad2 dt.hour ++ ":" ++ pad2 dt.minute

/-- `normalize_date`: convert an RFC 2822 date string to `yyyy/mm/dd hh:mm`;
on falsy input return it unchanged, on parse failure return the raw string. -/
def normalize_date (parse : String → Option PyDateTime) :
    Option String → Option String
  | none => none
  | some s =>
    if s = "" then some s
    else
      match parse s with
      | some dt => some (strftimeYmdHM dt)
      | none => some s

/-! ### The SQLite index (db.py), with the `sqlite3` transaction model

`Tables` is the data of the three tables plus the autoincrement counters and
a logical clock supplying `CURRENT_TIMESTAMP` (strictly increasing, so
`created_at` values of distinct inserts are distinct).  `Conn` is a Python
`sqlite3.Connection`: statements act on the `pending` state of the implicit
open transaction, `commit()` publishes `pending` as `committed`, and
`close()` without a commit discards `pending`. -/

/-- Updatable content columns of an `emails` row (everything the upsert's
`DO UPDATE SET` clause assigns). -/
structure EmailFields where
  thread_id : Option String
  message_id : Option String
  subject : Option String
  from_addr : Option String
  to_addrs : Option String
  cc_addrs : Option String
  bcc_addrs : Option String
  date : Option String
  snippet : Option String
  text_body : Option String
  html_body : Option String
  headers_json : String
  raw_eml_path : List String
deriving DecidableEq, Repr

/-- A row of the `emails` table. -/
structure EmailRow where
  id : Nat
  gmail_id : String
  fields : EmailFields
  created_at : Nat
deriving DecidableEq, Repr

/-- A row of the `attachments` table. -/
structure AttachRow where
  id : Nat
  email_id : Nat
  filename : String
  content_type : String
  size : Nat
  file_path : List String
  created_at : Nat
deriving DecidableEq, Repr

/-- The three tables, autoincrement counters and the timestamp clock. -/
structure Tables where
  emails : List EmailRow
  attachments : List AttachRow
  emailLabels : List (Nat × String × String)
  nextEmailId : Nat
  nextAttId : Nat
  clock : Nat
deriving DecidableEq, Repr

/-- `INSERT ... ON CONFLICT(gmail_id) DO UPDATE SET ...` on the `emails`
table: a conflicting row keeps its `id` and `created_at` and gets all content
columns overwritten; otherwise a fresh row is appended. -/
def Tables.upsertEmail (parse : String → Option PyDateTime) (t : Tables)
    (gmail_id : String) (f : EmailFields) : Tables :=
  let f := { f with date := normalize_date parse f.date }
  if t.emails.any (fun r => r.gmail_id == gmail_id) then
    { t with emails :=
        t.emails.map fun r =>
          if r.gmail_id == gmail_id then { r with fields := f } else r }
  else
    { t with
      emails := t.emails ++ [⟨t.nextEmailId, gmail_id, f, t.clock⟩],
      nextEmailId := t.nextEmailId + 1,
      clock := t.clock + 1 }

/-- A connection: the durably committed state and the pending view of the
implicit open transaction. -/
structure Conn where
  committed : Tables
  pending : Tables
deriving DecidableEq, Repr

/-- Freshly initialised database (after `connect` + `init_db`). -/
def initTables : Tables := ⟨[], [], [], 1, 1, 0⟩

/-- A new connection to a database whose committed state is `t`. -/
def freshConn (t : Tables) : Conn := ⟨t, t⟩

/-- `connect(db_path)` on a new database followed by `init_db`. -/
def connect_init : Conn := freshConn initTables

/-- `close()`: discard the uncommitted pending state. -/
def Conn.close (c : Conn) : Tables := c.committed

/-- `upsert_email` (db.py lines 91-150): execute the upsert, then commit. -/
def upsert_email (parse : String → Option PyDateTime) (c : Conn)
    (gmail_id : String) (f : EmailFields) : Conn :=
  let p := c.pending.upsertEmail parse gmail_id f
  ⟨p, p⟩

/-- `get_email_id_by_gmail_id` (db.py lines 153-157). -/
def get_email_id_by_gmail_id (c : Conn) (gmail_id : String) : Option Nat :=
  (c.pending.emails.find? (fun r => r.gmail_id == gmail_id)).map (·.id)

/-- `delete_attachments_for_email` (db.py lines 160-163): delete all
attachment rows of the email, then commit. -/
def delete_attachments_for_email (c : Conn) (email_id : Nat) : Conn :=
  let p := { c.pending with
    attachments := c.pending.attachments.filter (fun r => r.email_id != email_id) }
  ⟨p, p⟩

/-- `insert_attachment` (db.py lines 166-186): insert one attachment row.
It does NOT commit. -/
def insert_attachment (c : Conn) (email_id : Nat) (filename content_type : String)
    (size : Nat) (file_path : List String) : Conn :=
  { c with pending := { c.pending with
      attachments := c.pending.attachments ++
        [⟨c.pending.nextAttId, email_id, filename, content_type, size, file_path,
          c.pending.clock⟩],
      nextAttId := c.pending.nextAttId + 1,
      clock := c.pending.clock + 1 } }

/-- `insert_email_labels` (db.py lines 189-207): delete the email's label
rows, insert the new associations, commit. -/
def insert_email_labels (c : Conn) (email_id : Nat)
    (labels : List (String × String)) : Conn :=
  let p := { c.pending with
    emailLabels := c.pending.emailLabels.filter (fun r => r.1 != email_id)
      ++ labels.map (fun nl => (email_id, nl.1, nl.2)) }
  ⟨p, p⟩

/-- Insert an `emails` row (insertion sort step) keeping `created_at` order. -/
def insertByCreated (r : EmailRow) : List EmailRow → List EmailRow
  | [] => [r]
  | x :: xs =>
    if r.created_at ≤ x.created_at then r :: x :: xs else x :: insertByCreated r xs

/-- `ORDER BY created_at` over the `emails` table. -/
def sortByCreated : List EmailRow → List EmailRow
  | [] => []
  | x :: xs => insertByCreated x (sortByCreated xs)

/-- One output row of `export_csv`, in the SELECT's column order. -/
structure CsvRow where
  gmail_id : String
  thread_id : Option String
  message_id : Option String
  subject : Option String
  from_addr : Option String
  to_addrs : Option String
  cc_addrs : Option String
  bcc_addrs : Option String
  date : Option String
  snippet : Option String
  text_body : Option String
  html_body : Option String
  raw_eml_path : List String
deriving DecidableEq, Repr

/-- Column selection of `export_csv`. -/
def toCsvRow (r : EmailRow) : CsvRow :=
  ⟨r.gmail_id, r.fields.thread_id, r.fields.message_id, r.fields.subject,
    r.fields.from_addr, r.fields.to_addrs, r.fields.cc_addrs, r.fields.bcc_addrs,
    r.fields.date, r.fields.snippet, r.fields.text_body, r.fields.html_body,
    r.fields.raw_eml_path⟩

/-- `export_csv` (db.py lines 210-231): all email rows ordered by
`created_at`, read through the connection's current view. -/
def export_csv (c : Conn) : List CsvRow :=
  (sortByCreated c.pending.emails).map toCsvRow

/-- A sequence of `upsert_email` calls on one connection. -/
def ingestAll (parse : String → Option PyDateTime) (c : Conn) :
    List (String × EmailFields) → Conn
  | [] => c
  | m :: ms => ingestAll parse (upsert_email parse c m.1 m.2) ms

/-! ### The file system (gmail_client.py lines 129-179)

A disk is a finite map from paths (component lists) to byte contents; a
directory exists exactly when some file lies under it. -/

/-- True when `dir` is an initial segment of `p` (so `p` lies under `dir`). -/
def pathHasBase : List String → List String → Bool
  | [], _ => true
  | _ :: _, [] => false
  | d :: ds, x :: xs => d == x && pathHasBase ds xs

/-- The file store. -/
structure Disk where
  files : List (List String × List Nat)
deriving DecidableEq, Repr

/-- `Path.exists()` for a file path. -/
def Disk.pathLive (d : Disk) (p : List String) : Bool :=
  d.files.any (fun f => f.1 == p)

/-- `write_bytes`: create or overwrite. -/
def Disk.writeFile (d : Disk) (p : List String) (content : List Nat) : Disk :=
  if d.pathLive p then
    ⟨d.files.map fun f => if f.1 == p then (p, content) else f⟩
  else ⟨d.files ++ [(p, content)]⟩

/-- `save_eml`: write `out_dir/<gmail_id>.eml` and return its path. -/
def save_eml (d : Disk) (outDir : List String) (gmail_id : String)
    (raw : List Nat) : List String × Disk :=
  let p := outDir ++ [gmail_id ++ ".eml"]
  (p, d.writeFile p raw)

/-- `clear_attachments_dir`: `shutil.rmtree` of
`out_dir/attachments/<gmail_id>` when it exists — remove every file under
that directory. -/
def clear_attachments_dir (d : Disk) (outDir : List String) (gmail_id : String) : Disk :=
  ⟨d.files.filter fun f => !(pathHasBase (outDir ++ ["attachments", gmail_id]) f.1)⟩

/-- `pathlib`'s `stem`/`suffix` split of a file name: the suffix starts at
the last dot, provided that dot is neither the first nor the last character. -/
def stemSuffix (name : String) : String × String :=
  let cs := name.data
  match cs.reverse.findIdx? (· == '.') with
  | none => (name, "")
  | some j =>
    let i := cs.length - 1 - j
    if 0 < i ∧ i < cs.length - 1 then (⟨cs.take i⟩, ⟨cs.drop i⟩) else (name, "")

/-- The collision loop of `save_attachment`: try
`<stem>_<counter><suffix>` for `counter = start, start+1, ...` until the path
is free.  `fuel` bounds the search; the caller passes more fuel than there
are files on disk, so the fallback arm is unreachable. -/
def findFreePath (d : Disk) (dir : List String) (stem sfx : String) :
    Nat → Nat → List String
  | 0, counter => dir ++ [stem ++ "_" ++ toString counter ++ sfx]
  | fuel + 1, counter =>
    let p := dir ++ [stem ++ "_" ++ toString counter ++ sfx]
    if d.pathLive p then findFreePath d dir stem sfx fuel (counter + 1) else p

/-- `save_attachment` (gmail_client.py lines 146-179): write the data under
`out_dir/attachments/<gmail_id>/`, suffixing the name on collision, and
return the chosen path. -/
def save_attachment (d : Disk) (outDir : List String) (gmail_id filename : String)
    (data : List Nat) : List String × Disk :=
  let dir := outDir ++ ["attachments", gmail_id]
  let p0 := dir ++ [filename]
  let ss := stemSuffix filename
  let p := if d.pathLive p0 then findFreePath d dir ss.1 ss.2 (d.files.length + 1) 1
           else p0
  (p, d.writeFile p data)

/-! ### The per-message loop of `main` (__init__.py lines 164-258, success
path) and the end of the run (lines 266-271).

A `MsgInput` is what the transport hands the loop for one message id: the
metadata view, the raw bytes, and the decoded MIME tree together with the
header fields the parser reads off it (`parse_message_object`). -/

/-- Transport data and decoded form of one message. -/
structure MsgInput where
  mid : String
  threadId : Option String
  snippet : Option String
  labelIds : List String
  raw : List Nat
  messageId : Option String
  subject : Option String
  fromAddr : Option String
  toAddrs : Option String
  ccAddrs : Option String
  bccAddrs : Option String
  date : Option String
  headersJson : String
  tree : MimePart

/-- Connection plus disk: the mutable state of the run. -/
structure SysState where
  conn : Conn
  disk : Disk

/-- The body of the per-message loop: pick the destination label, save the
.eml, parse, upsert, replace label associations, delete the email's
attachment rows (committing), clear the on-disk attachment directory, then
save and insert each extracted attachment (inserts left uncommitted). -/
def processMessage (parse : String → Option PyDateTime) (base : List String)
    (labelNames : List String) (idToName : List (String × String))
    (st : SysState) (m : MsgInput) : SysState :=
  let primary := primary_label labelNames idToName m.labelIds
  let labelDir := base ++ [pyStrip primary]
  let ed := save_eml st.disk labelDir m.mid m.raw
  let bodies := extract_bodies m.tree
  let atts := extract_attachments m.tree
  let fields : EmailFields :=
    ⟨m.threadId, m.messageId, m.subject, m.fromAddr, m.toAddrs, m.ccAddrs,
      m.bccAddrs, m.date, m.snippet, bodies.1, bodies.2, m.headersJson, ed.1⟩
  let c1 := upsert_email parse st.conn m.mid fields
  match get_email_id_by_gmail_id c1 m.mid with
  | none => ⟨c1, ed.2⟩
  | some eid =>
    let labelTuples := m.labelIds.filterMap
      (fun lid => (lookupOpt idToName lid).map (fun n => (n, lid)))
    let c2 := if labelTuples.isEmpty then c1 else insert_email_labels c1 eid labelTuples
    let c3 := delete_attachments_for_email c2 eid
    let d2 := clear_attachments_dir ed.2 labelDir m.mid
    let fin := atts.foldl
      (fun (acc : Conn × Disk) a =>
        let pr := save_attachment acc.2 labelDir m.mid a.filename a.data
        (insert_attachment acc.1 eid a.filename a.content_type a.size pr.1, pr.2))
      (c3, d2)
    ⟨fin.1, fin.2⟩

/-- A whole run of `main` over a list of fetched messages: process each, then
export the CSV (a pure read) and close the connection — uncommitted pending
changes are discarded.  Returns the durably committed tables and the disk. -/
def runMain (parse : String → Option PyDateTime) (base : List String)
    (labelNames : List String) (idToName : List (String × String))
    (msgs : List MsgInput) (st0 : SysState) : Tables × Disk :=
  let st := msgs.foldl (processMessage parse base labelNames idToName) st0
  (st.conn.close, st.disk)

/-! ### Concrete scenarios used to exhibit the commit-gap defect (C1, C2) -/

/-- Label map of the demo account: one label `INBOX` with id `L1`. -/
def demoIdToName : List (String × String) := [("L1", "INBOX")]

/-- A plain-text body leaf. -/
def demoBodyLeaf : Leaf := ⟨"text/plain", "", none, some "hello", some [104, 105]⟩

/-- First ingestion's attachment part: `b.pdf`, two bytes. -/
def demoLeafB : Leaf :=
  ⟨"application/pdf", "attachment; filename=b.pdf", some "b.pdf", none, some [1, 2]⟩

/-- Second ingestion's attachment part: `a.pdf`, three bytes. -/
def demoLeafA : Leaf :=
  ⟨"application/pdf", "attachment; filename=a.pdf", some "a.pdf", none, some [3, 4, 5]⟩

/-- Message `m1` as first fetched (body + `b.pdf`). -/
def demoTreeB : MimePart := .multipart [.leaf demoBodyLeaf, .leaf demoLeafB]

/-- Message `m1` as fetched on the re-run (body + `a.pdf`). -/
def demoTreeA : MimePart := .multipart [.leaf demoBodyLeaf, .leaf demoLeafA]

/-- The transport view of `m1` with tree `t`. -/
def demoMsg (t : MimePart) : MsgInput :=
  { mid := "m1", threadId := some "t1", snippet := some "snip",
    labelIds := ["L1"], raw := [82, 70], messageId := some "<x@y>",
    subject := some "Hi", fromAddr := some "a@b", toAddrs := some "c@d",
    ccAddrs := none, bccAddrs := none, date := some "not a date",
    headersJson := "\x7b\x7d", tree := t }

/-- A second, attachment-free message `m2`. -/
def demoMsg2 : MsgInput :=
  { mid := "m2", threadId := some "t2", snippet := some "s2",
    labelIds := ["L1"], raw := [82], messageId := some "<m2@y>",
    subject := some "Yo", fromAddr := some "a@b", toAddrs := none,
    ccAddrs := none, bccAddrs := none, date := none,
    headersJson := "\x7b\x7d", tree := .leaf demoBodyLeaf }

/-- C1 scenario, first run: ingest `m1` with `b.pdf` into an empty store. -/
def c1Run1 : Tables × Disk :=
  runMain (fun _ => none) ["emails"] ["INBOX"] demoIdToName
    [demoMsg demoTreeB] ⟨connect_init, ⟨[]⟩⟩

/-- C1 scenario, second run: re-ingest `m1`, now carrying `a.pdf`. -/
def c1Run2 : Tables × Disk :=
  runMain (fun _ => none) ["emails"] ["INBOX"] demoIdToName
    [demoMsg demoTreeA] ⟨freshConn c1Run1.1, c1Run1.2⟩

/-- C2 scenario, first run: `m1` with `b.pdf` followed by `m2`, so `m2`'s
upsert commits `m1`'s attachment rows and the old set is durably stored. -/
def c2Run1 : Tables × Disk :=
  runMain (fun _ => none) ["emails"] ["INBOX"] demoIdToName
    [demoMsg demoTreeB, demoMsg2] ⟨connect_init, ⟨[]⟩⟩

/-- C2 scenario, second run: re-ingest `m1` alone with `a.pdf`. -/
def c2Run2 : Tables × Disk :=
  runMain (fun _ => none) ["emails"] ["INBOX"] demoIdToName
    [demoMsg demoTreeA] ⟨freshConn c2Run1.1, c2Run1.2⟩

/-! ### Spec-side definitions used for refinement comparisons -/

/-- The attachment-qualification rule exactly as claim C5 words it, for an
arbitrary leaf: disposition contains "attachment", or disposition contains
"inline" and a filename is declared, or a filename is declared via any
header mechanism regardless of disposition. -/
def claimQualifies (l : Leaf) : Bool :=
  pyIn "attachment" (strLower l.disposition)
    || (pyIn "inline" (strLower l.disposition) && l.filename.isSome)
    || l.filename.isSome

/-- The `gmail_id` column of the `emails` table, in row order. -/
def gids (t : Tables) : List String := t.emails.map (·.gmail_id)

/-- `ingestAll` at the table level. -/
def foldUpserts (parse : String → Option PyDateTime) (t : Tables) :
    List (String × EmailFields) → Tables
  | [] => t
  | m :: ms => foldUpserts parse (t.upsertEmail parse m.1 m.2) ms

/-- First-occurrence order of a list of external ids: the ingestion order of
the distinct messages of a run, given the ids already present in `seen`. -/
def firstOccurrences (seen : List String) : List String → List String
  | [] => []
  | g :: gs =>
    if seen.any (· == g) then firstOccurrences seen gs
    else g :: firstOccurrences (seen ++ [g]) gs

/-- Rows strictly ordered by `created_at`, all below the clock. -/
def orderedTables (t : Tables) : Prop :=
  t.emails.Pairwise (fun a b => a.created_at < b.created_at)
    ∧ ∀ r ∈ t.emails, r.created_at < t.clock

/-! ### Helper lemmas -/

lemma pyElem_mem {a : String} {l : List String} (h : pyElem a l = true) : a ∈ l := by
  rcases List.any_eq_true.mp h with ⟨b, hb, hba⟩
  exact (eq_of_beq hba) ▸ hb

/-- Closed form of the per-leaf contribution in the multipart branch: a
record is produced exactly for a truthy, non-junk filename and a non-empty
decodable payload (a truthy filename already satisfies the third disjunct of
the qualification test). -/
lemma attPartMulti_char (l : Leaf) :
    attPartMulti l =
      match l.filename, l.payload with
      | some fn, some d =>
        if fn ≠ "" ∧ isJunk fn = false ∧ d ≠ [] then [⟨fn, l.ctype, d, d.length⟩]
        else []
      | _, _ => [] := by
  rcases hf : l.filename with _ | fn <;> rcases hp : l.payload with _ | d <;>
    simp only [attPartMulti, truthyFilename, hf, hp, Option.getD_some, Option.getD_none,
      Option.isSome_some, Option.isSome_none]
  · split
    · rfl
    · split
      · rfl
      · simp
  · split
    · rfl
    · split
      · rfl
      · simp
  · by_cases hfn : fn = ""
    · subst hfn
      simp
    · by_cases hj : isJunk fn
      · simp [hfn, hj]
      · simp [hfn, hj]
  · by_cases hfn : fn = ""
    · subst hfn
      simp
    · by_cases hj : isJunk fn
      · simp [hfn, hj]
      · by_cases hd : d = []
        · subst hd
          simp [hfn, hj]
        · simp [hfn, hj, hd]

/-- Closed form of the non-multipart branch: here the qualification test has
no filename-only disjunct, so on top of a truthy, non-junk filename and a
non-empty payload the disposition itself must qualify the part. -/
lemma attSingle_char (l : Leaf) :
    attSingle l =
      match l.filename, l.payload with
      | some fn, some d =>
        if (pyIn "attachment" (strLower l.disposition)
              || (pyIn "inline" (strLower l.disposition) && decide (fn ≠ ""))) = true
            ∧ fn ≠ "" ∧ isJunk fn = false ∧ d ≠ [] then
          [⟨fn, l.ctype, d, d.length⟩]
        else []
      | _, _ => [] := by
  rcases hf : l.filename with _ | fn <;> rcases hp : l.payload with _ | d <;>
    simp only [attSingle, truthyFilename, hf, hp, Option.getD_some, Option.getD_none]
  · split
    · rfl
    · simp
  · split
    · rfl
    · simp
  · by_cases hfn : fn = ""
    · subst hfn
      simp
    · by_cases hj : isJunk fn
      · simp [hfn, hj]
      · cases ha : pyIn "attachment" (strLower l.disposition) <;>
          cases hi : pyIn "inline" (strLower l.disposition) <;>
          simp [hfn, hj, ha, hi]
  · by_cases hfn : fn = ""
    · subst hfn
      simp
    · by_cases hj : isJunk fn
      · simp [hfn, hj]
      · cases ha : pyIn "attachment" (strLower l.disposition) <;>
          cases hi : pyIn "inline" (strLower l.disposition) <;>
          by_cases hd : d = [] <;>
          simp [hfn, hj, ha, hi, hd]

/-- Every record returned by `extract_attachments` carries the leaf's truthy,
non-junk filename and its non-empty decoded payload, with `size` computed as
the payload length. -/
lemma mem_extract_attachments {p : MimePart} {a : AttachmentRec}
    (h : a ∈ extract_attachments p) :
    a.filename ≠ "" ∧ isJunk a.filename = false ∧ a.data ≠ []
      ∧ a.size = a.data.length := by
  have core : ∀ (l : Leaf), a ∈ attPartMulti l ∨ a ∈ attSingle l →
      a.filename ≠ "" ∧ isJunk a.filename = false ∧ a.data ≠ []
        ∧ a.size = a.data.length := by
    intro l hl
    rcases hl with hl | hl
    · rw [attPartMulti_char] at hl
      rcases hf : l.filename with _ | fn <;> rcases hp : l.payload with _ | d <;>
        rw [hf, hp] at hl <;> simp at hl
      rcases hl with ⟨⟨hfn, hj, hd⟩, ha⟩
      subst ha
      exact ⟨hfn, hj, hd, rfl⟩
    · rw [attSingle_char] at hl
      rcases hf : l.filename with _ | fn <;> rcases hp : l.payload with _ | d <;>
        rw [hf, hp] at hl <;> simp at hl
      rcases hl with ⟨⟨_, hfn, hj, hd⟩, ha⟩
      subst ha
      exact ⟨hfn, hj, hd, rfl⟩
  cases p with
  | leaf l => exact core l (Or.inr h)
  | multipart ps =>
    simp only [extract_attachments, List.mem_flatMap] at h
    rcases h with ⟨l, _, hl⟩
    exact core l (Or.inl hl)

lemma bodiesStep_fst_some {acc : Option String × Option String} {l : Leaf}
    {s : String} (h : acc.1 = some s) : (bodiesStep acc l).1 = some s := by
  unfold bodiesStep
  split
  · rename_i hc
    rw [h] at hc
    exact absurd hc.2.2 (by simp)
  · split
    · exact h
    · exact h

lemma bodiesStep_snd_some {acc : Option String × Option String} {l : Leaf}
    {s : String} (h : acc.2 = some s) : (bodiesStep acc l).2 = some s := by
  unfold bodiesStep
  split
  · exact h
  · split
    · rename_i hc
      rw [h] at hc
      exact absurd hc.2.2 (by simp)
    · exact h

lemma bodiesStep_fst_of_not_plain {acc : Option String × Option String} {l : Leaf}
    (h : l.ctype ≠ "text/plain") : (bodiesStep acc l).1 = acc.1 := by
  unfold bodiesStep
  split
  · rename_i hc
    exact absurd hc.1 h
  · split
    · rfl
    · rfl

lemma bodiesStep_snd_of_not_html {acc : Option String × Option String} {l : Leaf}
    (h : l.ctype ≠ "text/html") : (bodiesStep acc l).2 = acc.2 := by
  unfold bodiesStep
  split
  · rfl
  · split
    · rename_i hc
      exact absurd hc.1 h
    · rfl

lemma bodiesFold_fst_some {ls : List Leaf} {acc : Option String × Option String}
    {s : String} (h : acc.1 = some s) : (ls.foldl bodiesStep acc).1 = some s := by
  induction ls generalizing acc with
  | nil => exact h
  | cons l ls ih => exact ih (bodiesStep_fst_some h)

lemma bodiesFold_snd_some {ls : List Leaf} {acc : Option String × Option String}
    {s : String} (h : acc.2 = some s) : (ls.foldl bodiesStep acc).2 = some s := by
  induction ls generalizing acc with
  | nil => exact h
  | cons l ls ih => exact ih (bodiesStep_snd_some h)

lemma bodiesFold_fst_none {ls : List Leaf} {acc : Option String × Option String}
    (hls : ∀ l ∈ ls, l.ctype ≠ "text/plain") (h : acc.1 = none) :
    (ls.foldl bodiesStep acc).1 = none := by
  induction ls generalizing acc with
  | nil => exact h
  | cons l ls ih =>
    refine ih (fun x hx => hls x (List.mem_cons_of_mem l hx)) ?_
    rw [bodiesStep_fst_of_not_plain (hls l (List.mem_cons_self l ls))]
    exact h

lemma bodiesFold_snd_none {ls : List Leaf} {acc : Option String × Option String}
    (hls : ∀ l ∈ ls, l.ctype ≠ "text/html") (h : acc.2 = none) :
    (ls.foldl bodiesStep acc).2 = none := by
  induction ls generalizing acc with
  | nil => exact h
  | cons l ls ih =>
    refine ih (fun x hx => hls x (List.mem_cons_of_mem l hx)) ?_
    rw [bodiesStep_snd_of_not_html (hls l (List.mem_cons_self l ls))]
    exact h

lemma ingestAll_pending (parse : String → Option PyDateTime) (c : Conn)
    (msgs : List (String × EmailFields)) :
    (ingestAll parse c msgs).pending = foldUpserts parse c.pending msgs := by
  induction msgs generalizing c with
  | nil => rfl
  | cons m ms ih => exact ih (upsert_email parse c m.1 m.2)

lemma upsert_gids (parse : String → Option PyDateTime) (t : Tables)
    (g : String) (f : EmailFields) :
    gids (t.upsertEmail parse g f) =
      if t.emails.any (fun r => r.gmail_id == g) then gids t else gids t ++ [g] := by
  unfold Tables.upsertEmail
  split
  · simp only [gids, List.map_map]
    refine List.map_congr_left (fun r _ => ?_)
    by_cases hr : r.gmail_id == g <;> simp [Function.comp, hr]
  · simp [gids]

lemma any_map_gid (l : List EmailRow) (g : String) :
    (l.map (·.gmail_id)).any (· == g) = l.any (fun r => r.gmail_id == g) := by
  induction l with
  | nil => rfl
  | cons r rs ih => simp [ih]

lemma any_gids (t : Tables) (g : String) :
    (gids t).any (· == g) = t.emails.any (fun r => r.gmail_id == g) :=
  any_map_gid t.emails g

lemma foldUpserts_gids (parse : String → Option PyDateTime)
    (msgs : List (String × EmailFields)) (t : Tables) :
    gids (foldUpserts parse t msgs) =
      gids t ++ firstOccurrences (gids t) (msgs.map (·.1)) := by
  induction msgs generalizing t with
  | nil => simp [foldUpserts, firstOccurrences]
  | cons m ms ih =>
    simp only [foldUpserts, List.map_cons, firstOccurrences, any_gids]
    by_cases h : t.emails.any (fun r => r.gmail_id == m.1) = true
    · rw [if_pos h, ih]
      have hg : gids (t.upsertEmail parse m.1 m.2) = gids t := by
        rw [upsert_gids, if_pos h]
      rw [hg]
    · rw [if_neg h, ih]
      have hg : gids (t.upsertEmail parse m.1 m.2) = gids t ++ [m.1] := by
        rw [upsert_gids, if_neg h]
      rw [hg]
      simp

lemma upsert_ordered (parse : String → Option PyDateTime) (t : Tables)
    (g : String) (f : EmailFields) (h : orderedTables t) :
    orderedTables (t.upsertEmail parse g f) := by
  obtain ⟨hpw, hck⟩ := h
  unfold Tables.upsertEmail
  split
  · constructor
    · refine (List.pairwise_map.mpr ?_)
      refine hpw.imp_of_mem (fun ha hb hab => ?_)
      dsimp only
      split <;> split <;> exact hab
    · intro r hr
      rcases List.mem_map.mp hr with ⟨x, hx, hxr⟩
      have := hck x hx
      subst hxr
      split <;> exact this
  · constructor
    · rw [List.pairwise_append]
      refine ⟨hpw, List.pairwise_singleton _ _, fun a ha b hb => ?_⟩
      rcases List.mem_singleton.mp hb with rfl
      exact hck a ha
    · intro r hr
      rcases List.mem_append.mp hr with hr | hr
      · exact Nat.lt_succ_of_lt (hck r hr)
      · rcases List.mem_singleton.mp hr with rfl
        exact Nat.lt_succ_self _

lemma foldUpserts_ordered (parse : String → Option PyDateTime)
    (msgs : List (String × EmailFields)) (t : Tables) (h : orderedTables t) :
    orderedTables (foldUpserts parse t msgs) := by
  induction msgs generalizing t with
  | nil => exact h
  | cons m ms ih => exact ih _ (upsert_ordered parse t m.1 m.2 h)

lemma insertByCreated_head (r : EmailRow) (xs : List EmailRow)
    (h : ∀ x ∈ xs, r.created_at < x.created_at) :
    insertByCreated r xs = r :: xs := by
  cases xs with
  | nil => rfl
  | cons y ys =>
    unfold insertByCreated
    rw [if_pos (Nat.le_of_lt (h y (List.mem_cons_self y ys)))]

lemma sortByCreated_fix (l : List EmailRow)
    (h : l.Pairwise (fun a b => a.created_at < b.created_at)) :
    sortByCreated l = l := by
  induction l with
  | nil => rfl
  | cons x xs ih =>
    rw [List.pairwise_cons] at h
    unfold sortByCreated
    rw [ih h.2]
    exact insertByCreated_head x xs h.1

/-! ### Claim theorems -/

/-- C1: re-ingesting the same gmail_id with a different attachment list is
claimed to leave exactly the second ingestion's attachment set persisted in
the attachments index and on disk.  Evaluating the pipeline at the failing
input shows the code breaks this: the second run's attachment inserts are
never committed before the connection closes (the per-row inserts are left in
the open implicit transaction and `close()` discards them), so the committed
index holds no attachment record at all for the message, while the second
ingestion's extracted set is non-empty; on disk the replacement did happen
and only the second run's file survives. -/
theorem C1_reingest_index_loses_new_set :
    c1Run2.1.attachments = []
      ∧ extract_attachments demoTreeA =
          [⟨"a.pdf", "application/pdf", [3, 4, 5], 3⟩]
      ∧ (c1Run2.2.files.filter fun f =>
            pathHasBase ["emails", "INBOX", "attachments", "m1"] f.1) =
          [(["emails", "INBOX", "attachments", "m1", "a.pdf"], [3, 4, 5])] := by
  decide

/-- C2: replacing a message's attachments is claimed to be a single logical
step, with no final committed state showing the old set deleted and the new
set absent.  Evaluating the pipeline at the failing input refutes this for
the code: after the first run the old record `b.pdf` is durably committed
(the following message's upsert committed it); the re-run's
`delete_attachments_for_email` commits the deletion on its own, the new
inserts stay uncommitted, and `close()` discards them — the final committed
state has the old set deleted and the non-empty new set absent. -/
theorem C2_replace_commits_delete_without_insert :
    c2Run1.1.attachments.map (·.filename) = ["b.pdf"]
      ∧ c2Run2.1.attachments = []
      ∧ extract_attachments demoTreeA ≠ [] := by
  decide

lemma primary_label_eq (names : List String) (idToName : List (String × String))
    (mids : List String) :
    primary_label names idToName mids =
      ((mids.map (lookupName idToName)).find? (fun n => pyElem n names)).getD
        (names.headD "") := by
  induction mids with
  | nil => rfl
  | cons lid rest ih =>
    simp only [primary_label, List.map_cons, List.find?_cons]
    cases hb : pyElem (lookupName idToName lid) names <;> simp [hb, ih]

lemma primary_label_mem (x : String) (xs : List String)
    (idToName : List (String × String)) (mids : List String) :
    primary_label (x :: xs) idToName mids ∈ x :: xs := by
  induction mids with
  | nil => exact List.mem_cons_self x xs
  | cons lid rest ih =>
    simp only [primary_label]
    by_cases hb : pyElem (lookupName idToName lid) (x :: xs) = true
    · rw [if_pos hb]
      exact pyElem_mem hb
    · rw [if_neg hb]
      exact ih

/-- C3 counterexample: requested labels `["A", "B"]`; the message reports its
labels in the order `B` then `A`.  The code returns `B` (first match in the
message's label order); the claim's rule (first match in the requested-label
order) returns `A`. -/
theorem C3_counterexample :
    primary_label ["A", "B"] [("id1", "B"), ("id2", "A")] ["id1", "id2"] = "B"
      ∧ claim_primary_label ["A", "B"] [("id1", "B"), ("id2", "A")] ["id1", "id2"] = "A"
      ∧ ("B" : String) ≠ "A" := by
  decide

/-- C3 (amended): the destination grouping is the name of the first label in
the MESSAGE's metadata-reported label order whose name occurs among the
caller's requested labels (ids missing from the account's label map
contribute the never-matching empty name); if none matches, it defaults to
the first requested label.  In particular the result is always one of the
requested labels, so every message lands in exactly one destination. -/
theorem C3_grouping_first_message_label (x : String) (xs : List String)
    (idToName : List (String × String)) (mids : List String) :
    primary_label (x :: xs) idToName mids ∈ x :: xs
      ∧ primary_label (x :: xs) idToName mids =
        ((mids.map (lookupName idToName)).find? (fun n => pyElem n (x :: xs))).getD x := by
  refine ⟨primary_label_mem x xs idToName mids, ?_⟩
  have heq := primary_label_eq (x :: xs) idToName mids
  simpa using heq

/-- C4: in a multipart message, among the leaves visited in depth-first tree
order only the first `text/plain` leaf (here: with decodable content, the
decoded tree of the claim) populates the extracted text body, regardless of
every later leaf; symmetrically the first `text/html` leaf populates the HTML
body. -/
theorem C4_first_leaf_populates_body (ps : List MimePart) (pre rest : List Leaf)
    (l : Leaf) (s : String) (hsplit : nonContainerLeaves ps = pre ++ l :: rest) :
    (l.ctype = "text/plain" → l.content = some s →
        (∀ p ∈ pre, p.ctype ≠ "text/plain") →
        (extract_bodies (MimePart.multipart ps)).1 = some s)
      ∧ (l.ctype = "text/html" → l.content = some s →
        (∀ p ∈ pre, p.ctype ≠ "text/html") →
        (extract_bodies (MimePart.multipart ps)).2 = some s) := by
  constructor
  · intro hct hcont hpre
    show ((nonContainerLeaves ps).foldl bodiesStep (none, none)).1 = some s
    rw [hsplit, List.foldl_append, List.foldl_cons]
    refine bodiesFold_fst_some ?_
    have hfst : (pre.foldl bodiesStep (none, none)).1 = none :=
      bodiesFold_fst_none hpre rfl
    unfold bodiesStep
    rw [if_pos ⟨hct, by rw [hcont]; rfl, hfst⟩]
    exact hcont
  · intro hct hcont hpre
    show ((nonContainerLeaves ps).foldl bodiesStep (none, none)).2 = some s
    rw [hsplit, List.foldl_append, List.foldl_cons]
    refine bodiesFold_snd_some ?_
    have hsnd : (pre.foldl bodiesStep (none, none)).2 = none :=
      bodiesFold_snd_none hpre rfl
    unfold bodiesStep
    split
    · rename_i hc
      rw [hct] at hc
      exact absurd hc.1 (by decide)
    · rw [if_pos ⟨hct, by rw [hcont]; rfl, hsnd⟩]
      exact hcont

/-- Witness tree for C4: two plain leaves then two HTML leaves. -/
def c4Parts : List MimePart :=
  [.leaf ⟨"text/plain", "", none, some "one", none⟩,
   .leaf ⟨"text/plain", "", none, some "two", none⟩,
   .leaf ⟨"text/html", "", none, some "h1", none⟩,
   .leaf ⟨"text/html", "", none, some "h2", none⟩]

/-- C4 witness: on a concrete tree with two `text/plain` and two `text/html`
leaves, the first of each populates the bodies. -/
theorem C4_witness :
    (extract_bodies (MimePart.multipart c4Parts)).1 = some "one"
      ∧ (extract_bodies (MimePart.multipart c4Parts)).2 = some "h1" :=
  ⟨(C4_first_leaf_populates_body c4Parts []
      [⟨"text/plain", "", none, some "two", none⟩,
       ⟨"text/html", "", none, some "h1", none⟩,
       ⟨"text/html", "", none, some "h2", none⟩]
      ⟨"text/plain", "", none, some "one", none⟩ "one" (by decide)).1
      rfl rfl (by decide),
   (C4_first_leaf_populates_body c4Parts
      [⟨"text/plain", "", none, some "one", none⟩,
       ⟨"text/plain", "", none, some "two", none⟩]
      [⟨"text/html", "", none, some "h2", none⟩]
      ⟨"text/html", "", none, some "h1", none⟩ "h1" (by decide)).2
      rfl rfl (by decide)⟩

/-- C5 counterexample: for the single leaf of a non-multipart message the
claimed rule fails.  This leaf declares a filename (`report.pdf`) with no
disposition header, is not junk, is not a text part, and has a non-empty
decodable payload, so under the claim it qualifies and must be recorded; the
code's non-multipart branch omits the filename-only disjunct and extracts
nothing. -/
theorem C5_counterexample :
    claimQualifies ⟨"application/pdf", "", some "report.pdf", none, some [1, 2, 3]⟩ = true
      ∧ isJunk "report.pdf" = false
      ∧ extract_attachments
          (MimePart.leaf ⟨"application/pdf", "", some "report.pdf", none, some [1, 2, 3]⟩)
          = [] := by
  decide

/-- C5 (amended): for leaves of a multipart message the claimed
qualification rule holds (disposition contains "attachment", or "inline"
with a declared filename, or any declared filename), and a qualifying leaf
with a truthy non-junk filename and non-empty decodable payload is recorded;
but for the single leaf of a non-multipart message only the two
disposition-based disjuncts apply — a filename alone does not qualify it.
In both shapes a `text/plain` or `text/html` leaf without filename is never
an attachment. -/
theorem C5_attachment_qualification (ps : List MimePart) (l : Leaf) :
    extract_attachments (MimePart.multipart ps) =
        (nonContainerLeaves ps).flatMap attPartMulti
      ∧ (attPartMulti l ≠ [] ↔
          claimQualifies l = true ∧ truthyFilename l.filename = true
            ∧ isJunk ((l.filename).getD "") = false
            ∧ ∃ d, l.payload = some d ∧ d ≠ [])
      ∧ (extract_attachments (MimePart.leaf l) ≠ [] ↔
          (pyIn "attachment" (strLower l.disposition)
              || (pyIn "inline" (strLower l.disposition)
                  && truthyFilename l.filename)) = true
            ∧ truthyFilename l.filename = true
            ∧ isJunk ((l.filename).getD "") = false
            ∧ ∃ d, l.payload = some d ∧ d ≠ [])
      ∧ ((l.ctype = "text/plain" ∨ l.ctype = "text/html") → l.filename = none →
          attPartMulti l = [] ∧ extract_attachments (MimePart.leaf l) = []) := by
  refine ⟨rfl, ?_, ?_, ?_⟩
  · rw [attPartMulti_char]
    rcases hf : l.filename with _ | fn <;> rcases hp : l.payload with _ | d
    · simp [truthyFilename]
    · simp [truthyFilename]
    · simp [hp]
    · by_cases hfn : fn = ""
      · subst hfn
        simp [truthyFilename]
      · by_cases hj : isJunk fn
        · simp [truthyFilename, hfn, hj]
        · by_cases hd : d = []
          · subst hd
            simp [truthyFilename, hfn, hj]
          · simp [truthyFilename, claimQualifies, hf, hfn, hj, hd]
  · show attSingle l ≠ [] ↔ _
    rw [attSingle_char]
    rcases hf : l.filename with _ | fn <;> rcases hp : l.payload with _ | d
    · simp [truthyFilename]
    · simp [truthyFilename]
    · simp [hp]
    · by_cases hfn : fn = ""
      · subst hfn
        simp [truthyFilename]
      · by_cases hj : isJunk fn
        · simp [truthyFilename, hfn, hj]
        · by_cases hd : d = []
          · subst hd
            simp [truthyFilename, hfn, hj]
          · cases ha : pyIn "attachment" (strLower l.disposition) <;>
              cases hi : pyIn "inline" (strLower l.disposition) <;>
              simp [truthyFilename, hfn, hj, hd, ha, hi]
  · intro _ hf
    constructor
    · rw [attPartMulti_char, hf]
    · show attSingle l = []
      rw [attSingle_char, hf]

/-- C5 witness: a multipart leaf with only a Content-Type filename is
extracted (the filename-only disjunct applies there), while the non-empty
record condition of the amended rule holds. -/
theorem C5_witness :
    (attPartMulti ⟨"application/pdf", "", some "report.pdf", none, some [1, 2, 3]⟩ ≠ []
      ↔ True)
    ∧ (attPartMulti ⟨"text/plain", "", none, some "b", some [9]⟩ = []
        ∧ extract_attachments (MimePart.leaf ⟨"text/plain", "", none, some "b", some [9]⟩)
            = []) := by
  constructor
  · rw [(C5_attachment_qualification [] ⟨"application/pdf", "", some "report.pdf", none,
      some [1, 2, 3]⟩).2.1]
    simp only [iff_true]
    exact ⟨by decide, by decide, by decide, [1, 2, 3], rfl, by decide⟩
  · exact (C5_attachment_qualification []
      ⟨"text/plain", "", none, some "b", some [9]⟩).2.2.2 (Or.inl rfl) rfl

/-- C6: no record returned by the attachment extractor has a filename
containing (case-insensitively) a vendor-internal junk marker, whatever the
leaf's disposition was; and a leaf whose filename is
`EML*OECUSTOMPROPERTY_foo` contributes nothing in either the multipart or
the non-multipart shape. -/
theorem C6_junk_parts_discarded (p : MimePart) (a : AttachmentRec)
    (h : a ∈ extract_attachments p) (l : Leaf)
    (hfoo : l.filename = some "EML*OECUSTOMPROPERTY_foo") :
    (∀ j ∈ outlookJunk, pyIn j (strUpper a.filename) = false)
      ∧ attPartMulti l = [] ∧ attSingle l = [] := by
  constructor
  · have hj : isJunk a.filename = false := (mem_extract_attachments h).2.1
    intro j hjl
    have := List.any_eq_false.mp (by simpa [isJunk] using hj) j hjl
    simpa using this
  · have hjunk : isJunk "EML*OECUSTOMPROPERTY_foo" = true := by decide
    constructor
    · rw [attPartMulti_char, hfoo]
      cases hp : l.payload with
      | none => rfl
      | some d => simp [hjunk]
    · rw [attSingle_char, hfoo]
      cases hp : l.payload with
      | none => rfl
      | some d => simp [hjunk]

/-- C6 witness: the `b.pdf` record extracted from the demo tree has no junk
marker in its name, and a concrete junk-named leaf is dropped in both
shapes. -/
theorem C6_witness :
    pyIn "EML*OECUSTOMPROPERTY" (strUpper "b.pdf") = false
      ∧ pyIn "EML*OECUSTOMHTML" (strUpper "b.pdf") = false
      ∧ attPartMulti ⟨"text/xml", "attachment", some "EML*OECUSTOMPROPERTY_foo", none,
          some [1]⟩ = []
      ∧ attSingle ⟨"text/xml", "attachment", some "EML*OECUSTOMPROPERTY_foo", none,
          some [1]⟩ = [] := by
  have h := C6_junk_parts_discarded demoTreeB
    ⟨"b.pdf", "application/pdf", [1, 2], 2⟩ (by decide)
    ⟨"text/xml", "attachment", some "EML*OECUSTOMPROPERTY_foo", none, some [1]⟩ rfl
  exact ⟨h.1 "EML*OECUSTOMPROPERTY" (by decide), h.1 "EML*OECUSTOMHTML" (by decide),
    h.2.1, h.2.2⟩

/-- C7: the CSV export lists the rows of the message table in ingestion
order — the order in which each external id was first written — for every
run of upserts on a fresh store and every date parser, in particular
whatever mixture of normalized and unparseable raw date strings the rows
carry. -/
theorem C7_export_in_ingestion_order (parse : String → Option PyDateTime)
    (msgs : List (String × EmailFields)) :
    (export_csv (ingestAll parse connect_init msgs)).map (·.gmail_id) =
      firstOccurrences [] (msgs.map (·.1)) := by
  have hpend : (ingestAll parse connect_init msgs).pending =
      foldUpserts parse initTables msgs := ingestAll_pending parse connect_init msgs
  have hord : orderedTables (foldUpserts parse initTables msgs) :=
    foldUpserts_ordered parse msgs initTables ⟨List.Pairwise.nil, by intro r hr; cases hr⟩
  have hgids := foldUpserts_gids parse msgs initTables
  simp only [export_csv, hpend, sortByCreated_fix _ hord.1, List.map_map]
  have hcomp : (fun c => c.gmail_id) ∘ toCsvRow = fun (r : EmailRow) => r.gmail_id := rfl
  rw [hcomp]
  simpa [gids, initTables] using hgids

/-- C8 counterexample: the claim requires quoting whenever the done-label
contains whitespace.  A label containing a tab (which is whitespace but not
a space) is emitted unquoted by the code. -/
theorem C8_counterexample :
    build_query none (some "Done\tReading") = some "-label:Done\tReading"
      ∧ "Done\tReading".data.any Char.isWhitespace = true
      ∧ pyIn "\"" "-label:Done\tReading" = false := by
  decide

/-- C8 (amended): with no done-label the fetch filter is the base filter
unchanged; with a done-label, exactly one exclusion clause for it is
appended, joined by a single space, or standing alone when the base is empty
or absent, and the label is quoted exactly when it contains a space
character (U+0020) — not for other whitespace.  The claim's example holds
with exactly one occurrence of the exclusion marker. -/
theorem C8_exclusion_clause (q lbl : String) (b : Option String) :
    build_query b none = b
      ∧ build_query none (some lbl) =
          (if lbl = "" then none
           else some ("-label:" ++ (if pyIn " " lbl then "\"" ++ lbl ++ "\"" else lbl)))
      ∧ build_query (some q) (some lbl) =
          (if lbl = "" then some q
           else if q = "" then
             some ("-label:" ++ (if pyIn " " lbl then "\"" ++ lbl ++ "\"" else lbl))
           else
             some (q ++ " " ++
               ("-label:" ++ (if pyIn " " lbl then "\"" ++ lbl ++ "\"" else lbl))))
      ∧ build_query (some "newer_than:1y") (some "Done Reading") =
          some "newer_than:1y -label:\"Done Reading\""
      ∧ countSeg "-label:".data "newer_than:1y -label:\"Done Reading\"".data = 1 := by
  refine ⟨rfl, rfl, rfl, by decide, by decide⟩

/-- C9: every record emitted by the attachment extractor has non-empty data
and its `size` equal to the byte length of that data — a qualifying leaf
whose decoded payload is empty or absent is dropped. -/
theorem C9_no_empty_attachment_records (p : MimePart) (a : AttachmentRec)
    (h : a ∈ extract_attachments p) :
    a.size = a.data.length ∧ a.data ≠ [] :=
  ⟨(mem_extract_attachments h).2.2.2, (mem_extract_attachments h).2.2.1⟩

/-- C9 witness: the record extracted from the demo tree has matching size
and non-empty data. -/
theorem C9_witness :
    (⟨"b.pdf", "application/pdf", [1, 2], 2⟩ : AttachmentRec).size =
        (⟨"b.pdf", "application/pdf", [1, 2], 2⟩ : AttachmentRec).data.length
      ∧ (⟨"b.pdf", "application/pdf", [1, 2], 2⟩ : AttachmentRec).data ≠ [] :=
  C9_no_empty_attachment_records demoTreeB
    ⟨"b.pdf", "application/pdf", [1, 2], 2⟩ (by decide)

/-- C10: upserting a message whose gmail_id already has a row updates only
the content fields: the row keeps its primary key `id`, its `created_at`
timestamp and its position in the table, the change is committed, and the
attachments and label tables, the id counter and the clock are untouched —
so foreign keys stay valid and the export position is preserved. -/
theorem C10_upsert_keeps_identity (parse : String → Option PyDateTime) (c : Conn)
    (pre post : List EmailRow) (r : EmailRow) (f : EmailFields)
    (hsplit : c.pending.emails = pre ++ r :: post)
    (huniq : ∀ x ∈ pre ++ post, x.gmail_id ≠ r.gmail_id) :
    (upsert_email parse c r.gmail_id f).pending.emails =
        pre ++ ⟨r.id, r.gmail_id,
          { f with date := normalize_date parse f.date }, r.created_at⟩ :: post
      ∧ (upsert_email parse c r.gmail_id f).committed =
          (upsert_email parse c r.gmail_id f).pending
      ∧ (upsert_email parse c r.gmail_id f).pending.attachments = c.pending.attachments
      ∧ (upsert_email parse c r.gmail_id f).pending.emailLabels = c.pending.emailLabels
      ∧ (upsert_email parse c r.gmail_id f).pending.nextEmailId = c.pending.nextEmailId
      ∧ (upsert_email parse c r.gmail_id f).pending.clock = c.pending.clock := by
  have hmem : r ∈ c.pending.emails := by
    rw [hsplit]
    exact List.mem_append.mpr (Or.inr (List.mem_cons_self r post))
  have hany : (c.pending.emails.any fun x => x.gmail_id == r.gmail_id) = true :=
    List.any_eq_true.mpr ⟨r, hmem, by simp⟩
  refine ⟨?_, rfl, ?_, ?_, ?_, ?_⟩ <;>
    simp only [upsert_email, Tables.upsertEmail, hany, if_true]
  rw [hsplit, List.map_append, List.map_cons]
  have hpre : (pre.map fun x =>
      if x.gmail_id == r.gmail_id then
        { x with fields := { f with date := normalize_date parse f.date } }
      else x) = pre := by
    refine (List.map_congr_left (fun x hx => ?_)).trans (List.map_id pre)
    have hne : (x.gmail_id == r.gmail_id) = false :=
      beq_eq_false_iff_ne.mpr (huniq x (List.mem_append.mpr (Or.inl hx)))
    simp [hne]
  have hpost : (post.map fun x =>
      if x.gmail_id == r.gmail_id then
        { x with fields := { f with date := normalize_date parse f.date } }
      else x) = post := by
    refine (List.map_congr_left (fun x hx => ?_)).trans (List.map_id post)
    have hne : (x.gmail_id == r.gmail_id) = false :=
      beq_eq_false_iff_ne.mpr (huniq x (List.mem_append.mpr (Or.inr hx)))
    simp [hne]
  rw [hpre, hpost]
  simp

/-- C10 witness: a concrete one-row store re-upserted under the same
gmail_id keeps id 1, created_at 0 and its slot, with the new fields in
place. -/
theorem C10_witness :
    (upsert_email (fun _ => none)
        (freshConn { initTables with
          emails := [⟨1, "g1",
            ⟨none, none, none, none, none, none, none, none, none, none, none,
              "h", ["p"]⟩, 0⟩],
          nextEmailId := 2, clock := 1 })
        "g1"
        ⟨some "T", none, some "S", none, none, none, none, some "", none, none, none,
          "h2", ["p2"]⟩).pending.emails =
      [⟨1, "g1",
        ⟨some "T", none, some "S", none, none, none, none, some "", none, none, none,
          "h2", ["p2"]⟩, 0⟩] := by
  have h := C10_upsert_keeps_identity (fun _ => none)
    (freshConn { initTables with
      emails := [⟨1, "g1",
        ⟨none, none, none, none, none, none, none, none, none, none, none,
          "h", ["p"]⟩, 0⟩],
      nextEmailId := 2, clock := 1 })
    [] []
    ⟨1, "g1",
      ⟨none, none, none, none, none, none, none, none, none, none, none,
        "h", ["p"]⟩, 0⟩
    ⟨some "T", none, some "S", none, none, none, none, some "", none, none, none,
      "h2", ["p2"]⟩
    rfl (by intro x hx; cases hx)
  exact h.1.trans (by decide)
